import Mathlib

/-!
Verification of the dns-suite DNS wire codec (crates/libdns).

A shallow embedding of the domain-name compression engine and the message
codec: domain labels and names, the LabelMap back-reference dictionary,
compressed serialization/parsing of names and questions, and the bit-packed
message header.  Bytes are modelled as `Nat` (with `% 256` where the Rust
`u8`/`u16` domain matters), buffers as `List Nat`, and fallible Rust code as
`Option`/`Except`.  A Rust panic (out-of-range slice index, checked-arithmetic
overflow in debug builds) is modelled by a distinguished result
(`none` or `PResult.panicked`).
-/

namespace DnsSuite

/-! ## Labels and case-insensitive equality (domain/label.rs) -/

/-- A domain label, as its text bytes (without the wire length octet). -/
abbrev Label := List Nat

/-- ASCII lowercase of one byte (`to_ascii_lowercase`). -/
def lowerByte (b : Nat) : Nat := if 65 ≤ b ∧ b ≤ 90 then b + 32 else b

/-- Case-insensitive label equality: `PartialEq for DomainLabel`
(label.rs lines 72-79) lowercases both sides and compares. -/
def labelEq (a b : Label) : Bool := a.map lowerByte == b.map lowerByte

/-- Equality of `Vec<DomainLabel>`: same length and pairwise `labelEq`. -/
def labelsEq : List Label → List Label → Bool
  | [], [] => true
  | a :: xs, b :: ys => labelEq a b && labelsEq xs ys
  | _, _ => false

/-- `all_equal` from itertools: every element of the list equals every other
(vacuously true for the empty and singleton list). -/
def allEqual : List Bool → Bool
  | [] => true
  | x :: xs => xs.all (· == x)

/-- `PartialEq for DomainName` (name.rs lines 89-98): zip the two label
sequences, map pairwise label equality, and require `all_equal` of the
resulting booleans.  Note: `zip` truncates to the shorter sequence and
`all_equal` is not `all true`. -/
def dnEq (a b : List Label) : Bool := allEqual (List.zipWith labelEq a b)

/-! ## Label wire codec

The `DomainLabel` byte codec (`to_bytes`, `parse`, `len_bytes`) is used by
name.rs and lib.rs but its source is not present in this tree (label.rs here
only has validation and equality), so it is modelled from the spec. -/

/-- Modelled from the spec: `DomainLabel::to_bytes` is missing from src;
spec 4.1 says the wire form is the length octet followed by the text octets
(labels are at most 63 bytes by construction, so the length fits a `u8`). -/
def labelToBytes (l : Label) : List Nat := l.length :: l

/-- Modelled from the spec: `DomainLabel::len_bytes` (the full wire length,
length octet included) is missing from src; it is the label length plus one. -/
def labelLenBytes (l : Label) : Nat := l.length + 1

/-- Modelled from the spec: `DomainLabel::parse` is missing from src; spec 4.1
says it reads one length octet, consumes that many following octets, and
returns the label with the remaining buffer, failing when the buffer is
shorter than the declared length. -/
def labelParse : List Nat → Option (Label × List Nat)
  | [] => none
  | len :: rest =>
    if rest.length < len then none else some (rest.take len, rest.drop len)

/-! ## DomainName plain codec (name.rs lines 100-128) -/

/-- `DomainName::to_bytes`: each label's wire form in order, then the root
label `[0]`. -/
def nameToBytes (ls : List Label) : List Nat :=
  ((ls ++ [[]]).map labelToBytes).flatten

/-- `DomainName::parse`, with explicit fuel for termination: repeatedly parse
labels, stopping inclusively at the first empty (root) label, which is kept in
the label list.  Each successful label parse consumes at least one byte, so
`bytes.length + 1` fuel always suffices and the fuel-exhausted branch is
unreachable from `nameParse`. -/
def nameParseGo : Nat → List Nat → Option (List Label × List Nat)
  | 0, _ => none
  | fuel + 1, bytes =>
    match labelParse bytes with
    | none => none
    | some (l, rest) =>
      if l.isEmpty then some ([l], rest)
      else
        match nameParseGo fuel rest with
        | none => none
        | some (ls, r) => some (l :: ls, r)

/-- `DomainName::parse` at its natural fuel. -/
def nameParse (bytes : List Nat) : Option (List Label × List Nat) :=
  nameParseGo (bytes.length + 1) bytes

/-! ## DomainPointer (types.rs lines 97-131) -/

/-- `DomainPointer::to_bytes`: `0xC000 | offset`, big-endian two octets. -/
def ptrToBytes (off : Nat) : List Nat :=
  [(0xC000 ||| off % 65536) / 256, (0xC000 ||| off % 65536) % 256]

/-- `DomainPointer::parse`: the top two bits of the first octet must be `11`;
the remaining 14 bits are the offset.  Fails on a short buffer or missing
marker bits. -/
def ptrParse : List Nat → Option (Nat × List Nat)
  | b0 :: b1 :: rest =>
    if b0 % 256 / 64 == 3 then some ((b0 % 256 % 64) * 256 + b1 % 256, rest)
    else none
  | _ => none

/-! ## LabelMap (lib.rs lines 33-119)

The `HashMap<Vec<DomainLabel>, u16>` is modelled as an association list whose
key comparison is `labelsEq` (the case-insensitive `Vec<DomainLabel>`
equality).  `insert` only adds vacant keys, so keys stay distinct. -/

abbrev LabelMap := List (List Label × Nat)

/-- Find the stored entry (key and offset) whose key equals the probe. -/
def mapFindEntry : LabelMap → List Label → Option (List Label × Nat)
  | [], _ => none
  | (k, v) :: rest, key =>
    if labelsEq k key then some (k, v) else mapFindEntry rest key

/-- `HashMap::get`: the offset stored for a label-sequence key. -/
def mapFind (m : LabelMap) (key : List Label) : Option Nat :=
  (mapFindEntry m key).map Prod.snd

/-- The loop body of `LabelMap::get_domain_ptr` (lib.rs lines 51-66): walk
suffixes from the full sequence down; return the first suffix found together
with the leading labels not covered by it. -/
def getDomainPtrGo (m : LabelMap) : List Label → Option (Nat × List Label)
  | [] => none
  | l :: rest =>
    match mapFind m (l :: rest) with
    | some off => some (off, [])
    | none =>
      match getDomainPtrGo m rest with
      | some p => some (p.1, l :: p.2)
      | none => none

/-- Checked `usize` subtraction: `none` models the debug-build overflow panic
of `a - b` when `b > a`. -/
def checkedSub (a b : Nat) : Option Nat := if b ≤ a then some (a - b) else none

/-- `LabelMap::get_domain_ptr` including its `labels.len() - 1` entry
computation: on an empty slice the subtraction overflows and the call panics
(modelled as `none`); otherwise the suffix-walking loop runs. -/
def getDomainPtrR (m : LabelMap) (labels : List Label) :
    Option (Option (Nat × List Label)) :=
  (checkedSub labels.length 1).map (fun _ => getDomainPtrGo m labels)

/-- The outcome of `LabelMap::insert`, together with the updated map (the
Rust method mutates the map in place). -/
structure LabelMapInsertOutcome where
  map : LabelMap
  insertedRecords : Nat
  newOffset : Nat
  remainingLabels : List Label
deriving DecidableEq

/-- The loop body of `LabelMap::insert` (lib.rs lines 80-114): walk suffixes
from the full sequence down; stop at the first suffix already present
(returning its stored key as the remaining labels), otherwise insert the
suffix at the rolling offset and advance the offset by the leading label's
wire length. -/
def insertGo : LabelMap → List Label → Nat → LabelMapInsertOutcome
  | m, [], off => ⟨m, 0, off, []⟩
  | m, l :: rest, off =>
    match mapFindEntry m (l :: rest) with
    | some kv => ⟨m, 0, off, kv.1⟩
    | none =>
      let r := insertGo ((l :: rest, off) :: m) rest (off + labelLenBytes l)
      ⟨r.map, r.insertedRecords + 1, r.newOffset, r.remainingLabels⟩

/-- `LabelMap::insert` including its `domain_labels.len() - 1` computation:
panics (models as `none`) on an empty slice, otherwise runs the loop. -/
def insertR (m : LabelMap) (labels : List Label) (off : Nat) :
    Option LabelMapInsertOutcome :=
  (checkedSub labels.length 1).map (fun _ => insertGo m labels off)

/-! ## Compressed DomainName codec (name.rs lines 131-237) -/

/-- `DomainName::to_bytes_compressed` (name.rs lines 132-180): look up the
label sequence before inserting it.  On a (possibly partial) match emit the
uncovered leading labels followed by the two-byte pointer; otherwise emit the
plain `to_bytes` form.  Afterwards insert the full sequence at `base`.
Returns `none` when the name has no labels (the underlying map calls would
panic).  Offsets are exact naturals; all offsets reachable in the theorems
below stay far below `2 ^ 16`, where `u16` arithmetic is exact. -/
def toBytesCompressedR (ls : List Label) (base : Nat) (m : LabelMap) :
    Option (List Nat × Nat × LabelMap) :=
  if ls.isEmpty then none
  else
    let bo :=
      match getDomainPtrGo m ls with
      | some (off, rem) =>
        if rem.isEmpty then (ptrToBytes off, base + 2)
        else ((rem.map labelToBytes).flatten ++ ptrToBytes off,
              base + (rem.map labelLenBytes).sum + 2)
      | none => (nameToBytes ls, base + (nameToBytes ls).length)
    some (bo.1, bo.2, (insertGo m ls base).map)

/-- The structural parse errors of `ParseDataError` (lib.rs lines 130-138). -/
inductive ParseErr where
  | invalidByteStructure
  | emptyData
  | invalidDomainPointer
deriving DecidableEq

/-- The result of a parse that can also panic (Rust slice indexing with an
out-of-range start aborts instead of returning an error). -/
inductive PResult (α : Type) where
  | ok : α → PResult α
  | err : ParseErr → PResult α
  | panicked : PResult α
deriving DecidableEq

/-- `DomainName::parse_compressed` (name.rs lines 182-237), with fuel.  At
the current offset, slice the message (`&msg[offset..]` panics when the
offset exceeds the length).  If a domain pointer parses, slice at its target
(`&msg[ptr.offset()..]`, again panicking out of range), parse the target with
the PLAIN `DomainName::parse`, splice, and return at `offset + 2`; a failed
target parse is `InvalidDomainPointer`.  Otherwise parse one label; the empty
label ends the name (and is kept), any other label is appended and the loop
continues.  Each label iteration advances the in-bounds offset by at least
one, so `msg.length + 1` fuel always suffices and the fuel-exhausted branch
is unreachable from `parseCompressed`. -/
def parseCompressedGo (msg : List Nat) : Nat → Nat → List Label → PResult (List Label × Nat)
  | 0, _, _ => .panicked
  | fuel + 1, offset, acc =>
    if msg.length < offset then .panicked
    else
      match ptrParse (msg.drop offset) with
      | some (ptrOff, _) =>
        if msg.length < ptrOff then .panicked
        else
          match nameParse (msg.drop ptrOff) with
          | some (ls, _) => .ok (acc ++ ls, offset + 2)
          | none => .err .invalidDomainPointer
      | none =>
        match labelParse (msg.drop offset) with
        | none => .err .invalidByteStructure
        | some (l, _) =>
          if l.isEmpty then .ok (acc ++ [l], offset + 1)
          else parseCompressedGo msg fuel (offset + labelLenBytes l) (acc ++ [l])

/-- `DomainName::parse_compressed` at its natural fuel. -/
def parseCompressed (msg : List Nat) (base : Nat) : PResult (List Label × Nat) :=
  parseCompressedGo msg (msg.length + 1) base []

/-! ## Questions (message/question.rs) -/

/-- `parse_u16` (parse_utils.rs): two big-endian octets. -/
def parseU16 : List Nat → Option (Nat × List Nat)
  | b0 :: b1 :: rest => some ((b0 % 256) * 256 + b1 % 256, rest)
  | _ => none

/-- Big-endian bytes of a `u16`. -/
def u16be (n : Nat) : List Nat := [n % 65536 / 256, n % 256]

/-- `TryFrom<u16> for Qtype` (rr/mod.rs): 1-16 and 252-255 are the members. -/
def qtypeValid (n : Nat) : Bool := (1 ≤ n && n ≤ 16) || (252 ≤ n && n ≤ 255)

/-- `TryFrom<u16> for ResourceRecordQClass` (rr/mod.rs): 1-4 and 255. -/
def qclassValid (n : Nat) : Bool := (1 ≤ n && n ≤ 4) || n == 255

/-- A question-section entry; QTYPE and QCLASS are kept as their `u16` wire
values. -/
structure Question where
  qname : List Label
  qtype : Nat
  qclass : Nat
deriving DecidableEq

/-- `Question::to_bytes_compressed` (question.rs lines 73-92): the compressed
name followed by QTYPE and QCLASS, adding 4 to the name's offset. -/
def questionToBytesCompressedR (q : Question) (base : Nat) (m : LabelMap) :
    Option (List Nat × Nat × LabelMap) :=
  match toBytesCompressedR q.qname base m with
  | none => none
  | some (bs, off, mm) => some (bs ++ u16be q.qtype ++ u16be q.qclass, off + 4, mm)

/-- `Question::parse_compressed` (question.rs lines 94-123): name via
`DomainName::parse_compressed` (errors mapped to `InvalidByteStructure`),
then QTYPE and QCLASS from `&msg[new_offset..]` (panicking out of range),
each validated by its `TryFrom`; returns the name offset plus 4. -/
def questionParseCompressed (msg : List Nat) (base : Nat) : PResult (Question × Nat) :=
  match parseCompressed msg base with
  | .panicked => .panicked
  | .err _ => .err .invalidByteStructure
  | .ok (ls, off) =>
    if msg.length < off then .panicked
    else
      match parseU16 (msg.drop off) with
      | none => .err .invalidByteStructure
      | some (t, rest2) =>
        if qtypeValid t then
          match parseU16 rest2 with
          | none => .err .invalidByteStructure
          | some (c, _) =>
            if qclassValid c then .ok (⟨ls, t, c⟩, off + 4)
            else .err .invalidByteStructure
        else .err .invalidByteStructure

/-- `MessageQuestions::to_bytes_compressed` (question.rs lines 163-182):
serialize each question in order, threading the rolling offset and the map,
concatenating the bytes. -/
def messageQuestionsToBytesCompressed :
    List Question → Nat → LabelMap → Option (List Nat × Nat × LabelMap)
  | [], off, m => some ([], off, m)
  | q :: qs, off, m =>
    match questionToBytesCompressedR q off m with
    | none => none
    | some (bs, off2, m2) =>
      match messageQuestionsToBytesCompressed qs off2 m2 with
      | none => none
      | some (bs2, off3, m3) => some (bs ++ bs2, off3, m3)

/-- `MessageQuestions::parse_compressed` (question.rs lines 184-204): parse
the given count of questions, threading the offset; question errors are
mapped to `InvalidByteStructure`. -/
def messageQuestionsParseCompressed (msg : List Nat) :
    Nat → Nat → PResult (List Question × Nat)
  | base, 0 => .ok ([], base)
  | base, count + 1 =>
    match questionParseCompressed msg base with
    | .panicked => .panicked
    | .err _ => .err .invalidByteStructure
    | .ok (q, off) =>
      match messageQuestionsParseCompressed msg off count with
      | .panicked => .panicked
      | .err e => .err e
      | .ok (qs, off2) => .ok (q :: qs, off2)

/-! ## Message header (message/header.rs, message/mod.rs) -/

/-- QR (message/mod.rs lines 7-10). -/
inductive MessageType where
  | question
  | answer
deriving DecidableEq

/-- OPCODE (message/mod.rs lines 26-36): 3-15 collapse to Reserved. -/
inductive QueryOpcode where
  | query
  | iquery
  | status
  | reserved
deriving DecidableEq

/-- RCODE (message/mod.rs lines 54-76): 6-15 collapse to Reserved. -/
inductive ResponseCode where
  | noError
  | formatError
  | serverFailure
  | nameError
  | notImplemented
  | refused
  | reserved
deriving DecidableEq

/-- `TryFrom<u8> for MessageType` (message/mod.rs lines 12-23). -/
def tryFromMessageType (n : Nat) : Except Unit MessageType :=
  if n = 0 then .ok .question else if n = 1 then .ok .answer else .error ()

/-- `TryFrom<u8> for QueryOpcode` (message/mod.rs lines 38-51). -/
def tryFromQueryOpcode (n : Nat) : Except Unit QueryOpcode :=
  if n = 0 then .ok .query
  else if n = 1 then .ok .iquery
  else if n = 2 then .ok .status
  else if 3 ≤ n ∧ n ≤ 15 then .ok .reserved
  else .error ()

/-- `TryFrom<u8> for ResponseCode` (message/mod.rs lines 78-94). -/
def tryFromResponseCode (n : Nat) : Except Unit ResponseCode :=
  if n = 0 then .ok .noError
  else if n = 1 then .ok .formatError
  else if n = 2 then .ok .serverFailure
  else if n = 3 then .ok .nameError
  else if n = 4 then .ok .notImplemented
  else if n = 5 then .ok .refused
  else if 6 ≤ n ∧ n ≤ 15 then .ok .reserved
  else .error ()

/-- The 12-octet message header (header.rs lines 56-92). -/
structure Header where
  id : Nat
  qr : MessageType
  opcode : QueryOpcode
  authoritativeAns : Bool
  truncation : Bool
  recursionDesired : Bool
  recursionAvailable : Bool
  responseCode : ResponseCode
  qdcount : Nat
  ancount : Nat
  nscount : Nat
  arcount : Nat
deriving DecidableEq

/-- `Header::parse` (header.rs lines 190-242): ID, then the bit-packed flag
word (QR bit 15, OPCODE bits 14-11, AA/TC/RD/RA, 3 Z bits skipped, RCODE low
4 bits), then the four counts; every failure, including a failed `TryFrom`
conversion, is mapped to `ParseDataError::InvalidByteStructure`. -/
def headerParse (bytes : List Nat) : Except ParseErr (Header × List Nat) :=
  match parseU16 bytes with
  | none => .error .invalidByteStructure
  | some (id, r1) =>
    match r1 with
    | b2 :: b3 :: r2 =>
      match tryFromMessageType (b2 % 256 / 128) with
      | .error _ => .error .invalidByteStructure
      | .ok qr =>
        match tryFromQueryOpcode (b2 % 256 / 8 % 16) with
        | .error _ => .error .invalidByteStructure
        | .ok opcode =>
          match tryFromResponseCode (b3 % 256 % 16) with
          | .error _ => .error .invalidByteStructure
          | .ok rcode =>
            match parseU16 r2 with
            | none => .error .invalidByteStructure
            | some (qd, r3) =>
              match parseU16 r3 with
              | none => .error .invalidByteStructure
              | some (an, r4) =>
                match parseU16 r4 with
                | none => .error .invalidByteStructure
                | some (ns, r5) =>
                  match parseU16 r5 with
                  | none => .error .invalidByteStructure
                  | some (ar, r6) =>
                    .ok (⟨id, qr, opcode, b2 % 256 / 4 % 2 == 1,
                          b2 % 256 / 2 % 2 == 1, b2 % 256 % 2 == 1,
                          b3 % 256 / 128 == 1, rcode, qd, an, ns, ar⟩, r6)
    | _ => .error .invalidByteStructure

/-! ## Validated construction (domain/label.rs, domain/name.rs lines 49-87) -/

/-- The validation errors of `DomainLabelValidationError`. -/
inductive LabelValidationError where
  | labelTooLong
  | invalidStartChar
  | invalidEndChar
  | invalidChar
  | invalidAscii
deriving DecidableEq

/-- `AsciiChar::is_alphabetic`. -/
def isAlpha (c : Nat) : Bool := (65 ≤ c && c ≤ 90) || (97 ≤ c && c ≤ 122)

/-- `AsciiChar::is_alphanumeric`. -/
def isAlnum (c : Nat) : Bool := isAlpha c || (48 ≤ c && c ≤ 57)

/-- The interior-character branch of `validate_label`: a character that is
neither a hyphen nor alphanumeric is `InvalidChar`. -/
def checkInterior (c : Nat) : Option LabelValidationError :=
  if c != 45 && !isAlnum c then some .invalidChar else none

/-- The tail of the `with_position` loop of `validate_label`: interior
characters use the interior check; the final character of a multi-character
label must be alphanumeric (`InvalidEndChar`). -/
def validateMid : List Nat → Option LabelValidationError
  | [] => none
  | [c] => if !isAlnum c then some .invalidEndChar else none
  | c :: rest =>
    match checkInterior c with
    | some e => some e
    | none => validateMid rest

/-- The character loop of `validate_label` (label.rs lines 92-109): the first
character of a multi-character label must be alphabetic (`InvalidStartChar`);
a single character has itertools position `Only`, which matches neither the
First nor the Last branch and falls through to the interior check. -/
def validateChars : List Nat → Option LabelValidationError
  | [] => none
  | [c] => checkInterior c
  | c :: rest => if !isAlpha c then some .invalidStartChar else validateMid rest

/-- `DomainLabel::validate_label` (label.rs lines 82-111): the length check
against `MAX_LABEL_LENGTH = 63` runs before the character checks. -/
def validateLabel (l : List Nat) : Option LabelValidationError :=
  if 63 < l.length then some .labelTooLong else validateChars l

/-- `TryFrom<&str> for DomainLabel` (label.rs lines 46-60): the ASCII check
runs first, then `validate_label`. -/
def labelTryFrom (l : List Nat) : Except LabelValidationError Label :=
  if l.any (fun c => 128 ≤ c) then .error .invalidAscii
  else
    match validateLabel l with
    | some e => .error e
    | none => .ok l

/-- The validation errors of `DomainNameValidationError`. -/
inductive NameValidationError where
  | labelValidationError (e : LabelValidationError)
  | nameTooLong
  | invalidAscii
deriving DecidableEq

/-- `AsciiStr::split` on the dot character (byte 46). -/
def splitOnDot : List Nat → List (List Nat)
  | [] => [[]]
  | c :: rest =>
    if c == 46 then [] :: splitOnDot rest
    else
      match splitOnDot rest with
      | [] => [[c]]
      | p :: ps => (c :: p) :: ps

/-- The `map_while` over the dot-separated parts in
`TryFrom<&str> for DomainName`: validate each part in order, stopping at the
first failing label. -/
def collectLabels : List (List Nat) → Except LabelValidationError (List Label)
  | [] => .ok []
  | p :: ps =>
    match validateLabel p with
    | some e => .error e
    | none =>
      match collectLabels ps with
      | .error e => .error e
      | .ok ls => .ok (p :: ls)

/-- `TryFrom<&str> for DomainName` (name.rs lines 49-87): ASCII check, split
on dots, validate every label, then reject when the label lengths (length
octets not counted) sum beyond `DOMAIN_NAME_LENGTH_LIMIT = 255`. -/
def domainNameTryFrom (s : List Nat) : Except NameValidationError (List Label) :=
  if s.any (fun c => 128 ≤ c) then .error .invalidAscii
  else
    match collectLabels (splitOnDot s) with
    | .error e => .error (.labelValidationError e)
    | .ok ls =>
      if 255 < (ls.map List.length).sum then .error .nameTooLong else .ok ls

/-! ## Concrete inputs used by individual claims -/

/-- A dotted all-ASCII name text with five labels of lengths 63, 63, 63, 63
and 3: the label lengths sum to exactly 255. -/
def boundaryName255 : List Nat :=
  List.replicate 63 97 ++ 46 :: List.replicate 63 97 ++ 46 ::
    List.replicate 63 97 ++ 46 :: List.replicate 63 97 ++ 46 ::
    List.replicate 3 97

/-- As `boundaryName255` but with a final label of length 4: the label
lengths sum to exactly 256. -/
def boundaryName256 : List Nat :=
  List.replicate 63 97 ++ 46 :: List.replicate 63 97 ++ 46 ::
    List.replicate 63 97 ++ 46 :: List.replicate 63 97 ++ 46 ::
    List.replicate 4 97

/-- Three A/IN questions for `a.example.com`, `b.example.com` and
`c.b.example.com`: a sequence of names sharing suffixes in which the third
name's best match (`b.example.com`) was itself serialized with a pointer. -/
def sharedSuffixQuestions : List Question :=
  [⟨[[97], [101, 120, 97, 109, 112, 108, 101], [99, 111, 109]], 1, 1⟩,
   ⟨[[98], [101, 120, 97, 109, 112, 108, 101], [99, 111, 109]], 1, 1⟩,
   ⟨[[99], [98], [101, 120, 97, 109, 112, 108, 101], [99, 111, 109]], 1, 1⟩]

/-- The wire bytes produced by compressing `sharedSuffixQuestions` from
offset 0 with a fresh LabelMap: `a.example.com` literal, `b.example.com` as
`b` plus a pointer to offset 2, `c.b.example.com` as `c` plus a pointer to
offset 19 (the start of the compressed `b.example.com`). -/
def sharedSuffixWire : List Nat :=
  [1, 97, 7, 101, 120, 97, 109, 112, 108, 101, 3, 99, 111, 109, 0, 0, 1, 0, 1,
   1, 98, 192, 2, 0, 1, 0, 1,
   1, 99, 192, 19, 0, 1, 0, 1]

/-! ## Helper lemmas -/

/-- `labelsEq` holds exactly when the lowercased label lists agree. -/
theorem labelsEq_iff : ∀ a b : List Label,
    labelsEq a b = true ↔
      a.map (List.map lowerByte) = b.map (List.map lowerByte)
  | [], [] => by simp [labelsEq]
  | [], _ :: _ => by simp [labelsEq]
  | _ :: _, [] => by simp [labelsEq]
  | x :: xs, y :: ys => by
    simp [labelsEq, labelEq, labelsEq_iff xs ys]

/-- Probing the map with `labelsEq`-equal keys gives the same entry. -/
theorem mapFindEntry_congr (k1 k2 : List Label) (h : labelsEq k1 k2 = true) :
    ∀ m : LabelMap, mapFindEntry m k1 = mapFindEntry m k2
  | [] => rfl
  | (k, v) :: rest => by
    have hk : labelsEq k k1 = labelsEq k k2 := by
      rw [Bool.eq_iff_iff, labelsEq_iff, labelsEq_iff, (labelsEq_iff k1 k2).mp h]
    simp only [mapFindEntry, hk, mapFindEntry_congr k1 k2 h rest]

/-- The insertion loop never disturbs a binding already present. -/
theorem insertGo_preserves : ∀ (ls : List Label) (m : LabelMap) (off : Nat)
    (k : List Label) (v : Nat), mapFind m k = some v →
    mapFind (insertGo m ls off).map k = some v
  | [], _, _, _, _, h => h
  | l :: rest, m, off, k, v, h => by
    cases hf : mapFindEntry m (l :: rest) with
    | some kv => simpa [insertGo, hf] using h
    | none =>
      have hstep : mapFind ((l :: rest, off) :: m) k = some v := by
        cases hlk : labelsEq (l :: rest) k with
        | false => simpa [mapFind, mapFindEntry, hlk] using h
        | true =>
          exfalso
          obtain ⟨e, he, _⟩ := Option.map_eq_some'.mp h
          rw [mapFindEntry_congr (l :: rest) k hlk m, he] at hf
          exact Option.noConfusion hf
      simpa [insertGo, hf] using
        insertGo_preserves rest ((l :: rest, off) :: m) (off + labelLenBytes l) k v hstep

/-- Inserting a sequence whose full suffix is already a key is a no-op. -/
theorem insertGo_noop (m : LabelMap) (ls : List Label) (off : Nat)
    (h : (mapFind m ls).isSome = true) :
    (insertGo m ls off).map = m ∧ (insertGo m ls off).insertedRecords = 0 ∧
      (insertGo m ls off).newOffset = off := by
  cases ls with
  | nil => simp [insertGo]
  | cons l rest =>
    cases hf : mapFindEntry m (l :: rest) with
    | none => simp [mapFind, hf] at h
    | some kv => simp [insertGo, hf]

/-- Parsing the wire form of a label consumes exactly that form. -/
theorem labelParse_toBytes (l : Label) (r : List Nat) :
    labelParse (labelToBytes l ++ r) = some (l, r) := by
  have hlen : ¬ (l ++ r).length < l.length := by
    rw [List.length_append]; omega
  simp [labelToBytes, labelParse, hlen, List.take_left, List.drop_left]

/-- The name wire form decomposes label by label. -/
theorem nameToBytes_cons (l : Label) (ls : List Label) :
    nameToBytes (l :: ls) = labelToBytes l ++ nameToBytes ls := by
  simp [nameToBytes]

/-- A serialized name is longer than its label count. -/
theorem length_lt_nameToBytes_length (ls : List Label) :
    ls.length < (nameToBytes ls).length := by
  induction ls with
  | nil => simp [nameToBytes, labelToBytes]
  | cons l rest ih =>
    have h1 : (labelToBytes l).length = l.length + 1 := by simp [labelToBytes]
    rw [nameToBytes_cons, List.length_append, h1, List.length_cons]
    omega

/-- With sufficient fuel, parsing the serialized form of a name with no empty
labels yields the labels plus the kept root label, leaving the tail. -/
theorem nameParseGo_toBytes : ∀ (ls : List Label) (fuel : Nat) (r : List Nat),
    ls.length < fuel → (∀ l ∈ ls, l ≠ []) →
    nameParseGo fuel (nameToBytes ls ++ r) = some (ls ++ [[]], r)
  | [], fuel, r, hf, _ => by
    match fuel, hf with
    | fuel + 1, _ => simp [nameToBytes, nameParseGo, labelParse, labelToBytes]
  | l :: rest, fuel, r, hf, hne => by
    match fuel, hf with
    | fuel + 1, hf =>
      have hl : l ≠ [] := hne l (by simp)
      have hE : l.isEmpty = false := by simp [List.isEmpty_eq_false, hl]
      have hrec := nameParseGo_toBytes rest fuel r
        (Nat.lt_of_succ_lt_succ hf) (fun x hx => hne x (by simp [hx]))
      rw [nameToBytes_cons, List.append_assoc]
      simp [nameParseGo, labelParse_toBytes, hE, hrec]

/-- Zipping a name against itself-with-root compares each label to itself. -/
theorem zipWith_labelEq_append_root : ∀ ls : List Label,
    List.zipWith labelEq (ls ++ [[]]) ls = ls.map fun l => labelEq l l
  | [] => rfl
  | l :: rest => by simp [zipWith_labelEq_append_root rest]

/-- `allEqual` of a constant-true list is true. -/
theorem allEqual_map_true : ∀ ls : List Label,
    allEqual (ls.map fun _ => true) = true
  | [] => rfl
  | _ :: _ => by simp [allEqual]

/-- The source's name equality accepts a name against itself plus the kept
root label (the `zip` truncates to the shorter operand). -/
theorem dnEq_append_root (ls : List Label) : dnEq (ls ++ [[]]) ls = true := by
  rw [dnEq, zipWith_labelEq_append_root]
  have hmap : (ls.map fun l => labelEq l l) = ls.map fun _ => true := by
    simp [labelEq]
  rw [hmap]
  exact allEqual_map_true ls

/-- `tryFromMessageType` succeeds on every 1-bit value. -/
theorem tryFromMessageType_ok (n : Nat) (h : n ≤ 1) :
    ∃ x, tryFromMessageType n = .ok x := by
  interval_cases n <;> exact ⟨_, rfl⟩

/-- `tryFromQueryOpcode` succeeds on every 4-bit value (3-15 are Reserved). -/
theorem tryFromQueryOpcode_ok (n : Nat) (h : n ≤ 15) :
    ∃ x, tryFromQueryOpcode n = .ok x := by
  interval_cases n <;> exact ⟨_, rfl⟩

/-- `tryFromResponseCode` succeeds on every 4-bit value (6-15 are Reserved). -/
theorem tryFromResponseCode_ok (n : Nat) (h : n ≤ 15) :
    ∃ x, tryFromResponseCode n = .ok x := by
  interval_cases n <;> exact ⟨_, rfl⟩

/-- Validating every dot-separated part lets `collectLabels` return them. -/
theorem collectLabels_ok (ps : List (List Nat))
    (h : ∀ p ∈ ps, validateLabel p = none) : collectLabels ps = .ok ps := by
  induction ps with
  | nil => rfl
  | cons p rest ih =>
    have hp : validateLabel p = none := h p (by simp)
    have hr := ih (fun q hq => h q (by simp [hq]))
    simp [collectLabels, hp, hr]

/-- A list of bytes below 128 has no byte at or above 128. -/
theorem any_ge_128_eq_false (l : List Nat)
    (h : l.all (fun c => c < 128) = true) :
    l.any (fun c => 128 ≤ c) = false := by
  simp only [List.all_eq_true, decide_eq_true_eq] at h
  simp only [List.any_eq_false, decide_eq_true_eq]
  intro x hx
  have := h x hx
  omega

/-! ## Claim theorems -/

/-- C1 (code bug): serializing the suffix-sharing questions `a.example.com`,
`b.example.com`, `c.b.example.com` with `to_bytes_compressed` from a fresh
LabelMap at offset 0 succeeds (35 bytes, final offset 35), but parsing the
concatenated output back with `parse_compressed` from offset 0 fails with an
error instead of reconstructing the names: the third name's pointer targets
the compressed `b.example.com`, whose own pointer the plain target parser
cannot read, so the compression round-trip property does not hold. -/
theorem c1_compression_roundtrip_fails :
    (messageQuestionsToBytesCompressed sharedSuffixQuestions 0 []).map
        (fun r => (r.1, r.2.1)) = some (sharedSuffixWire, 35) ∧
    messageQuestionsParseCompressed sharedSuffixWire 0 3 =
      .err .invalidByteStructure := by
  constructor <;> rfl

/-- C2 (code bug): in a message holding `foo` at offset 0, a compressed
`b.foo` (label `b` plus a pointer to 0) at offset 5, and a pointer to offset
5 at offset 9, parsing the name at offset 9 must follow the two-hop chain and
splice `b.foo`, but `parse_compressed` hands the pointer target to the plain
`DomainName::parse`, which chokes on the embedded second pointer and returns
`InvalidDomainPointer` instead of the spliced labels. -/
theorem c2_multihop_pointer_fails :
    parseCompressed [3, 102, 111, 111, 0, 1, 98, 192, 0, 192, 5] 9 =
      .err .invalidDomainPointer := by decide

/-- C3 (code bug): `parse_compressed` slices the message with unchecked
indexing, so a pointer whose target offset 5 lies beyond a 2-byte message
panics instead of returning `InvalidDomainPointer`, and a base offset beyond
the buffer also panics instead of returning an error. -/
theorem c3_parse_compressed_panics :
    parseCompressed [192, 5] 0 = .panicked ∧
    parseCompressed [0, 0] 7 = .panicked := by decide

/-- C4 (code bug): the source's `PartialEq for DomainName` reduces to
`all_equal` over the pairwise comparisons, so the single-label names `com`
and `org` compare EQUAL even though their labels differ (all comparison
booleans are equal to each other, namely all false), and `a` compares equal
to `a.b` because `zip` truncates; position-wise equality does not hold. -/
theorem c4_domain_name_eq_bug :
    dnEq [[99, 111, 109]] [[111, 114, 103]] = true ∧
    labelEq [99, 111, 109] [111, 114, 103] = false ∧
    dnEq [[97]] [[97], [98]] = true := by decide

/-- C5: for a valid DomainName (non-empty labels of at most 63 bytes),
parsing the plain serialized form consumes the whole buffer including the
terminating root label and yields a name equal (under the source's name
equality) to the original. -/
theorem c5_name_roundtrip (ls : List Label)
    (hval : ∀ l ∈ ls, l ≠ [] ∧ l.length ≤ 63) :
    nameParse (nameToBytes ls) = some (ls ++ [[]], []) ∧
    dnEq (ls ++ [[]]) ls = true := by
  refine ⟨?_, dnEq_append_root ls⟩
  have h := nameParseGo_toBytes ls ((nameToBytes ls).length + 1) []
    (by have := length_lt_nameToBytes_length ls; omega)
    (fun l hl => (hval l hl).1)
  simpa [nameParse] using h

/-- Witness for C5 on the concrete name `a.bc`. -/
theorem c5_name_roundtrip_witness :
    (∀ l ∈ ([[97], [98, 99]] : List Label), l ≠ [] ∧ l.length ≤ 63) ∧
    (nameParse (nameToBytes [[97], [98, 99]]) =
        some ([[97], [98, 99], []], []) ∧
      dnEq [[97], [98, 99], []] [[97], [98, 99]] = true) :=
  ⟨by decide, c5_name_roundtrip [[97], [98, 99]] (by decide)⟩

/-- C6: when the suffix obtained by dropping `i` leading labels is in the map
and every longer suffix (fewer dropped labels) is absent, `get_domain_ptr`
returns the pointer to that stored offset paired with exactly the `i` leading
labels, i.e. the longest stored suffix wins. -/
theorem c6_get_domain_ptr_longest_suffix :
    ∀ (i : Nat) (m : LabelMap) (ls : List Label) (off : Nat),
      i < ls.length → mapFind m (ls.drop i) = some off →
      (∀ j, j < i → mapFind m (ls.drop j) = none) →
      getDomainPtrGo m ls = some (off, ls.take i) := by
  intro i
  induction i with
  | zero =>
    intro m ls off hlen hfound _
    cases ls with
    | nil => simp at hlen
    | cons l rest =>
      simp only [List.drop_zero] at hfound
      simp [getDomainPtrGo, hfound]
  | succ n ih =>
    intro m ls off hlen hfound hnone
    cases ls with
    | nil => simp at hlen
    | cons l rest =>
      have h0 : mapFind m (l :: rest) = none := by
        simpa using hnone 0 (Nat.succ_pos n)
      have hrec := ih m rest off (Nat.lt_of_succ_lt_succ (by simpa using hlen))
        (by simpa using hfound)
        (fun j hj => by simpa using hnone (j + 1) (Nat.succ_lt_succ hj))
      simp [getDomainPtrGo, h0, hrec]

/-- Witness for C6 at the spec's example: with `com` stored at 12 and
`google.com` stored at 30, compressing `sheets.google.com` points at 30 (the
longer match) and leaves `sheets` uncovered. -/
theorem c6_get_domain_ptr_longest_suffix_witness :
    (1 < ([[115, 104, 101, 101, 116, 115], [103, 111, 111, 103, 108, 101],
          [99, 111, 109]] : List Label).length ∧
     mapFind [([[103, 111, 111, 103, 108, 101], [99, 111, 109]], 30),
              ([[99, 111, 109]], 12)]
        (([[115, 104, 101, 101, 116, 115], [103, 111, 111, 103, 108, 101],
           [99, 111, 109]] : List Label).drop 1) = some 30) ∧
    getDomainPtrGo
        [([[103, 111, 111, 103, 108, 101], [99, 111, 109]], 30),
         ([[99, 111, 109]], 12)]
        [[115, 104, 101, 101, 116, 115], [103, 111, 111, 103, 108, 101],
         [99, 111, 109]] =
      some (30, [[115, 104, 101, 101, 116, 115]]) :=
  ⟨⟨by decide, by decide⟩,
   c6_get_domain_ptr_longest_suffix 1
     [([[103, 111, 111, 103, 108, 101], [99, 111, 109]], 30),
      ([[99, 111, 109]], 12)]
     [[115, 104, 101, 101, 116, 115], [103, 111, 111, 103, 108, 101],
      [99, 111, 109]]
     30 (by decide) (by decide) (by decide)⟩

/-- C7: an insert pass never overwrites an existing binding (the offset
stored for a suffix stays the one from the first insert that introduced it,
so the invariant is preserved across every sequence of inserts), and when the
full label sequence is already a key the insert is a no-op: the map, the
returned offset, and the inserted-record count are unchanged. -/
theorem c7_insert_first_wins (m : LabelMap) (ls : List Label) (off : Nat)
    (_hne : ls ≠ []) :
    (∀ k v, mapFind m k = some v → mapFind (insertGo m ls off).map k = some v) ∧
    ((mapFind m ls).isSome = true →
      (insertGo m ls off).map = m ∧
        (insertGo m ls off).insertedRecords = 0 ∧
        (insertGo m ls off).newOffset = off) :=
  ⟨fun k v h => insertGo_preserves ls m off k v h,
   fun h => insertGo_noop m ls off h⟩

/-- Witness for C7: re-inserting the already-present `com` at a new offset
changes nothing. -/
theorem c7_insert_first_wins_witness :
    (([[99, 111, 109]] : List Label) ≠ [] ∧
     (mapFind [([[99, 111, 109]], 5)] [[99, 111, 109]]).isSome = true) ∧
    ((insertGo [([[99, 111, 109]], 5)] [[99, 111, 109]] 9).map =
        [([[99, 111, 109]], 5)] ∧
     (insertGo [([[99, 111, 109]], 5)] [[99, 111, 109]] 9).insertedRecords = 0 ∧
     (insertGo [([[99, 111, 109]], 5)] [[99, 111, 109]] 9).newOffset = 9) :=
  ⟨⟨by decide, by decide⟩,
   (c7_insert_first_wins [([[99, 111, 109]], 5)] [[99, 111, 109]] 9
      (by decide)).2 (by decide)⟩

/-- C8 counterexample: a 12-byte header whose OPCODE nibble is 15 and whose
RCODE nibble is 15 (values outside the individually named members) parses
SUCCESSFULLY, both mapping to the Reserved catch-all, instead of failing with
`OpcodeError`/`RcodeError` as the claim states. -/
theorem c8_reserved_values_parse_ok :
    headerParse [0, 0, 120, 15, 0, 0, 0, 0, 0, 0, 0, 0] =
      .ok (⟨0, .question, .reserved, false, false, false, false, .reserved,
            0, 0, 0, 0⟩, []) := rfl

/-- C8 (amended): `Header::parse` never produces a per-field discriminated
error: every buffer of at least 12 bytes parses successfully (the 1-bit QR
and the 4-bit OPCODE/RCODE always land inside their enumerations thanks to
the Reserved catch-alls), and whenever it does fail the error is the single
`ParseDataError::InvalidByteStructure`, never a field-specific kind. -/
theorem c8_header_parse_error_taxonomy (bs : List Nat) :
    (12 ≤ bs.length → ∃ h rest, headerParse bs = .ok (h, rest)) ∧
    (∀ e, headerParse bs = .error e → e = .invalidByteStructure) := by
  constructor
  · intro hlen
    rcases bs with _ | ⟨b0, _ | ⟨b1, _ | ⟨b2, _ | ⟨b3, _ | ⟨q0, _ | ⟨q1,
      _ | ⟨a0, _ | ⟨a1, _ | ⟨n0, _ | ⟨n1, _ | ⟨r0, _ | ⟨r1, rest⟩⟩⟩⟩⟩⟩⟩⟩⟩⟩⟩⟩ <;>
      simp only [List.length_cons, List.length_nil] at hlen <;> try omega
    obtain ⟨qr, hqr⟩ := tryFromMessageType_ok (b2 % 256 / 128) (by omega)
    obtain ⟨op, hop⟩ := tryFromQueryOpcode_ok (b2 % 256 / 8 % 16) (by omega)
    obtain ⟨rc, hrc⟩ := tryFromResponseCode_ok (b3 % 256 % 16) (by omega)
    refine ⟨⟨(b0 % 256) * 256 + b1 % 256, qr, op, b2 % 256 / 4 % 2 == 1,
      b2 % 256 / 2 % 2 == 1, b2 % 256 % 2 == 1, b3 % 256 / 128 == 1, rc,
      (q0 % 256) * 256 + q1 % 256, (a0 % 256) * 256 + a1 % 256,
      (n0 % 256) * 256 + n1 % 256, (r0 % 256) * 256 + r1 % 256⟩, rest, ?_⟩
    simp [headerParse, parseU16, hqr, hop, hrc]
  · intro e he
    unfold headerParse at he
    repeat' split at he
    all_goals simp_all

/-- Witness for C8 on the all-zero 12-byte header. -/
theorem c8_header_parse_error_taxonomy_witness :
    12 ≤ ([0, 0, 0, 0, 0, 0, 0, 0, 0, 0, 0, 0] : List Nat).length ∧
    ∃ h rest, headerParse [0, 0, 0, 0, 0, 0, 0, 0, 0, 0, 0, 0] =
      .ok (h, rest) :=
  ⟨by decide,
   (c8_header_parse_error_taxonomy [0, 0, 0, 0, 0, 0, 0, 0, 0, 0, 0, 0]).1
     (by decide)⟩

/-- C9: an all-ASCII label whose characters pass the class checks succeeds at
exactly 63 characters and fails with `LabelTooLong` at 64 (the length check
runs first), and an all-ASCII dotted name whose parts all validate succeeds
when the label lengths sum to exactly 255 and fails with the name-too-long
error at 256. -/
theorem c9_boundaries :
    (∀ l : List Nat, l.all (fun c => c < 128) = true →
      (validateChars l = none → l.length = 63 → labelTryFrom l = .ok l) ∧
      (l.length = 64 → labelTryFrom l = .error .labelTooLong)) ∧
    (∀ s : List Nat, s.all (fun c => c < 128) = true →
      (∀ p ∈ splitOnDot s, validateLabel p = none) →
      ((((splitOnDot s).map List.length).sum = 255 →
          domainNameTryFrom s = .ok (splitOnDot s)) ∧
       (((splitOnDot s).map List.length).sum = 256 →
          domainNameTryFrom s = .error .nameTooLong))) := by
  constructor
  · intro l hascii
    have hany := any_ge_128_eq_false l hascii
    constructor
    · intro hchars hlen
      have hv : validateLabel l = none := by
        simp [validateLabel, hlen, hchars]
      simp [labelTryFrom, hany, hv]
    · intro hlen
      have hv : validateLabel l = some .labelTooLong := by
        simp [validateLabel, hlen]
      simp [labelTryFrom, hany, hv]
  · intro s hascii hlabels
    have hany := any_ge_128_eq_false s hascii
    have hcoll := collectLabels_ok (splitOnDot s) hlabels
    constructor
    · intro hsum
      simp [domainNameTryFrom, hany, hcoll, hsum]
    · intro hsum
      simp [domainNameTryFrom, hany, hcoll, hsum]

set_option maxRecDepth 100000 in
/-- Witness for C9 at the concrete boundary inputs: the 63- and 64-byte all-a
labels, and the dotted names whose label lengths sum to 255 and to 256. -/
theorem c9_boundaries_witness :
    ((List.replicate 63 97).all (fun c => c < 128) = true ∧
     validateChars (List.replicate 63 97) = none ∧
     (List.replicate 64 97).all (fun c => c < 128) = true ∧
     boundaryName255.all (fun c => c < 128) = true ∧
     (∀ p ∈ splitOnDot boundaryName255, validateLabel p = none) ∧
     ((splitOnDot boundaryName255).map List.length).sum = 255 ∧
     ((splitOnDot boundaryName256).map List.length).sum = 256) ∧
    labelTryFrom (List.replicate 63 97) = .ok (List.replicate 63 97) ∧
    labelTryFrom (List.replicate 64 97) = .error .labelTooLong ∧
    domainNameTryFrom boundaryName255 = .ok (splitOnDot boundaryName255) ∧
    domainNameTryFrom boundaryName256 = .error .nameTooLong :=
  ⟨by decide,
   (c9_boundaries.1 (List.replicate 63 97) (by decide)).1 (by decide) (by decide),
   (c9_boundaries.1 (List.replicate 64 97) (by decide)).2 (by decide),
   (c9_boundaries.2 boundaryName255 (by decide) (by decide)).1 (by decide),
   (c9_boundaries.2 boundaryName256 (by decide) (by decide)).2 (by decide)⟩

/-- C10: both `get_domain_ptr` and `insert` start with `labels.len() - 1` on
an unsigned length, so on an empty label slice the call panics, while on any
non-empty slice the subtraction succeeds and the suffix loop runs to
completion: the public interface requires at least one label. -/
theorem c10_nonempty_precondition (m : LabelMap) (ls : List Label) (off : Nat) :
    (ls ≠ [] →
      getDomainPtrR m ls = some (getDomainPtrGo m ls) ∧
        insertR m ls off = some (insertGo m ls off)) ∧
    (getDomainPtrR m [] = none ∧ insertR m [] off = none) := by
  constructor
  · intro h
    have hlen : 1 ≤ ls.length := by
      cases ls with
      | nil => exact absurd rfl h
      | cons a b => simp
    constructor <;> simp [getDomainPtrR, insertR, checkedSub, hlen]
  · constructor <;> simp [getDomainPtrR, insertR, checkedSub]

/-- Witness for C10 on the singleton label slice `a` and the empty map. -/
theorem c10_nonempty_precondition_witness :
    (([[97]] : List Label) ≠ []) ∧
    (getDomainPtrR [] [[97]] = some (getDomainPtrGo [] [[97]]) ∧
      insertR [] [[97]] 3 = some (insertGo [] [[97]] 3)) :=
  ⟨by decide, (c10_nonempty_precondition [] [[97]] 3).1 (by decide)⟩

end DnsSuite
